import Mathlib

/-!
Verification development for the `automatic-ffmpeg` monitor
(`app/monitor.py`).  The decision logic of the monitor is embedded
shallowly: strings are lists of characters, filesystem paths are lists of
path components, and every call to an external collaborator (ffprobe,
ffmpeg, `os.path.getsize`, the registry dictionaries) is an explicit
oracle input.  `encode_video` is embedded as a function from its oracle
environment to the trace of observable actions it performs, in source
order.
-/

/-- Characters of a Python string. -/
abbrev Str := List Char

/-- Conversion from a Lean string literal to the embedding's string type. -/
def str (s : String) : Str := s.data

/-- Python `str.lower()` (ASCII case folding suffices for the markers used). -/
def lowerStr (s : Str) : Str := s.map Char.toLower

/-- Python `str.strip()`: drop whitespace from both ends. -/
def pstrip (s : Str) : Str :=
  ((s.dropWhile Char.isWhitespace).reverse.dropWhile Char.isWhitespace).reverse

/-- Python's substring test `needle in hay`. -/
def containsSub (needle : Str) : Str → Bool
  | [] => needle.isPrefixOf []
  | c :: rest => needle.isPrefixOf (c :: rest) || containsSub needle rest

/-- A filesystem path, as its list of components (monitor.py builds paths
with `os.path.join` and splits them with `relpath`/`dirname`/`basename`;
the component list is the faithful abstraction of that usage). -/
abbrev FPath := List Str

/-- Index of the last `'.'` in a string, Python `s.rfind('.')`. -/
def findLastDot : Str → Option Nat
  | [] => none
  | c :: rest =>
    match findLastDot rest with
    | some i => some (i + 1)
    | none => if c = '.' then some 0 else none

/-- Python `os.path.splitext` on a bare filename (no separators): split at
the last dot, unless every character before that dot is itself a dot
(so `.mkv` has no extension, exactly as in CPython's `genericpath`). -/
def splitextName (s : Str) : Str × Str :=
  match findLastDot s with
  | none => (s, [])
  | some i =>
    if (s.take i).any (fun c => c ≠ '.') then (s.take i, s.drop i)
    else (s, [])

/-- Last component of a path (Python `os.path.basename` for our joined
paths); empty for the empty path. -/
def filenameOf (p : FPath) : Str := p.getLast? |>.getD []

/-- Python `os.path.splitext` applied to a whole (relative) path: the
extension is split off the final component only. -/
def pathSplitext (p : FPath) : FPath × Str :=
  match p with
  | [] => ([], [])
  | _ =>
    let (stem, ext) := splitextName (filenameOf p)
    (p.dropLast ++ [stem], ext)

/-- Length of the shared leading run of two component paths (used by
`os.path.relpath`). -/
def sharedLeadLen : FPath → FPath → Nat
  | a :: as, b :: bs => if a = b then 1 + sharedLeadLen as bs else 0
  | _, _ => 0

/-- Python `os.path.relpath p root` over component paths: climb out of the
unshared part of `root` with `..` components, then descend into `p`. -/
def relpathOf (p root : FPath) : FPath :=
  let c := sharedLeadLen p root
  List.replicate (root.length - c) (str "..") ++ p.drop c

/-- QUALITY_SUFFIXES from monitor.py line 29: recognized quality-suffix
tokens, in the order the source iterates them. -/
def QUALITY_SUFFIXES : List Str :=
  [str " - 4K", str " - 2160p", str " - 1080p", str " - 720p", str " - 480p",
   str " - SD", str " - HDR", str " - REMUX", str " - Remux"]

/-- Embedding of `get_version_output_name` (monitor.py lines 32-51),
parametrized by the `SYMLINK_VERSION_SUFFIX` configuration value.
Returns `none` for the Python `None` skip sentinel. -/
def get_version_output_name (vsuffix : Str) (source_name : Str) : Option Str :=
  if vsuffix = [] then some source_name
  else if (pstrip vsuffix).isSuffixOf source_name then none
  else
    match QUALITY_SUFFIXES.find? (fun s => s.isSuffixOf source_name) with
    | some s => some (source_name.take (source_name.length - s.length) ++ vsuffix)
    | none => some (source_name ++ vsuffix)

/-- Statement of claim C4's own case split, rendered from the claim's
words: the sentinel test uses the configured version suffix itself
(untrimmed); otherwise the first matching quality suffix is replaced,
otherwise the version suffix is appended. -/
def versionNameClaimSpec (vsuffix source_name : Str) : Bool :=
  if vsuffix.isSuffixOf source_name then
    get_version_output_name vsuffix source_name == none
  else
    match QUALITY_SUFFIXES.find? (fun s => s.isSuffixOf source_name) with
    | some s =>
      get_version_output_name vsuffix source_name
        == some (source_name.take (source_name.length - s.length) ++ vsuffix)
    | none =>
      get_version_output_name vsuffix source_name == some (source_name ++ vsuffix)

/-- Amended case split: identical to `versionNameClaimSpec` except that the
sentinel test uses the whitespace-trimmed version suffix, which is what
monitor.py line 42 (`SYMLINK_VERSION_SUFFIX.strip()`) actually checks. -/
def versionNameAmendedSpec (vsuffix source_name : Str) : Bool :=
  if (pstrip vsuffix).isSuffixOf source_name then
    get_version_output_name vsuffix source_name == none
  else
    match QUALITY_SUFFIXES.find? (fun s => s.isSuffixOf source_name) with
    | some s =>
      get_version_output_name vsuffix source_name
        == some (source_name.take (source_name.length - s.length) ++ vsuffix)
    | none =>
      get_version_output_name vsuffix source_name == some (source_name ++ vsuffix)

/-- Low-quality filename markers, monitor.py line 115. -/
def low_quality_markers : List Str :=
  [str "720p", str "480p", str "360p", str "sd", str "dvdrip", str "hdtv", str "webrip"]

/-- High-quality filename markers, monitor.py line 117. -/
def high_quality_markers : List Str :=
  [str "1080p", str "2160p", str "4k", str "uhd", str "bluray", str "bdremux", str "remux"]

/-- Result of the quality gate: whether the file is skipped, and whether
the ffprobe resolution fallback was invoked to decide. -/
structure QGResult where
  skip : Bool
  probed : Bool
deriving DecidableEq, Repr

/-- Embedding of `is_already_low_quality` (monitor.py lines 105-140).
`probeHeight` is the oracle for `get_video_resolution_from_ffprobe`
(`none` = probe failed); `filename` is the basename of the path. -/
def is_already_low_quality (probeHeight : Option Int) (filename : Str) : QGResult :=
  let name_lower := lowerStr filename
  let has_low := low_quality_markers.any (fun m => containsSub m name_lower)
  let has_high := high_quality_markers.any (fun m => containsSub m name_lower)
  if has_high then ⟨false, false⟩
  else if has_low then ⟨true, false⟩
  else
    match probeHeight with
    | some height => ⟨height ≤ 720, true⟩
    | none => ⟨false, true⟩

/-- MAX_SAME_SIZE_COUNT, monitor.py line 54. -/
def MAX_SAME_SIZE_COUNT : Nat := 60

/-- One loop of `wait_for_file_completion` (monitor.py lines 165-181).
`sizes i` is the oracle for `os.path.getsize` at the i-th one-second
sample (`none` = `FileNotFoundError`); `fuel` is the number of further
iterations the 24-hour timeout still allows.  Returns the Python function's
boolean: `true` iff the size was equal on `MAX_SAME_SIZE_COUNT` consecutive
samples before the timeout, `false` on timeout or on file disappearance. -/
def wait_loop (sizes : Nat → Option Int) (fuel i : Nat) (last : Int) (count : Nat) : Bool :=
  match sizes i with
  | none => false
  | some curr =>
    let count' := if curr = last then count + 1 else 0
    if MAX_SAME_SIZE_COUNT ≤ count' then true
    else
      match fuel with
      | 0 => false
      | fuel' + 1 => wait_loop sizes fuel' (i + 1) curr count'

/-- Embedding of `wait_for_file_completion`: the loop starts with
`last_size = -1` and `same_size_count = 0`. -/
def wait_for_file_completion (sizes : Nat → Option Int) (fuel : Nat) : Bool :=
  wait_loop sizes fuel 0 (-1) 0

/-- Result of one ffprobe duration query, the oracle for
`verify_encoded_file`: either the probe exited cleanly and its output
parsed to a duration, or anything else went wrong (non-zero exit,
unparsable output, missing binary, timeout - all reach the `except`). -/
inductive ProbeResult where
  | ok (duration : ℚ)
  | failure
deriving DecidableEq

/-- Embedding of `verify_encoded_file` (monitor.py lines 192-201): valid
iff the probe call succeeded and the reported duration is positive.  The
function reads the probe result only; it performs no filesystem action,
which the type (no filesystem argument or output) makes explicit. -/
def verify_encoded_file (r : ProbeResult) : Bool :=
  match r with
  | .ok duration => duration > 0
  | .failure => false

/-- Observable actions of one `encode_video` job, in source order. -/
inductive Event where
  | qualityCheck
  | metadataProbe
  | register
  | makeDestDir
  | growthCheck
  | removeTemp
  | removeFinal
  | verifyFinalFile
  | markProcessed
  | symlinkCreate
  | stabilityWait
  | audioProbe
  | invokeEncoder
  | verifyTempFile
  | renameTempFinal
  | unregister
deriving DecidableEq, Repr

/-- Oracle environment for one `encode_video` call: each field is the
value the corresponding external check returns for this job. -/
structure EncodeEnv where
  /-- `processing_files.get(source_path)` at entry (line 233). -/
  alreadyProcessing : Bool
  /-- `is_already_low_quality(source_path)` (line 238). -/
  lowQuality : Bool
  /-- `os.path.normpath(SOURCE_FOLDER) == os.path.normpath(DEST_FOLDER)` (line 260). -/
  sameFolderMode : Bool
  /-- configured `SYMLINK_VERSION_SUFFIX`. -/
  versionSuffix : Str
  /-- `source_name`, the stem of the destination basename (line 256). -/
  sourceStem : Str
  /-- `os.path.exists(dest_file_temp)` (line 272). -/
  tempExists : Bool
  /-- `is_file_growing(dest_file_temp)` (line 273). -/
  tempGrowing : Bool
  /-- `processed_files.get(dest_file_final)` (line 281). -/
  alreadyProcessed : Bool
  /-- `os.path.exists(dest_file_final)` (lines 285, 291). -/
  finalExists : Bool
  /-- `verify_encoded_file(dest_file_final)` (line 285). -/
  finalValid : Bool
  /-- `wait_for_file_completion(source_path)` (line 296). -/
  sourceStable : Bool
  /-- `get_audio_streams(source_path)` codec names (line 354); the probe
  returns `[]` both for zero audio streams and for its own failure. -/
  audioStreams : List Str
  /-- `process.wait() == 0` for the encoder (line 389). -/
  encodeExitZero : Bool
  /-- `verify_encoded_file(dest_file_temp)` (line 390). -/
  tempValid : Bool
  /-- `os.path.exists(dest_file_temp)` after a failed encode (line 402). -/
  tempExistsAfterFail : Bool

/-- Destination name selection, monitor.py lines 260-266: version-aware in
same-folder multi-version mode, plain stem otherwise.  `none` is the
sentinel return of line 263-265. -/
def outputName (env : EncodeEnv) : Option Str :=
  if env.sameFolderMode && !(env.versionSuffix == []) then
    get_version_output_name env.versionSuffix env.sourceStem
  else some env.sourceStem

/-- Events after the encoder subprocess finished, lines 389-403. -/
def afterEncode (env : EncodeEnv) : List Event :=
  if env.encodeExitZero then
    .verifyTempFile ::
      (if env.tempValid then [.renameTempFinal, .markProcessed, .symlinkCreate]
       else [.removeTemp])
  else if env.tempExistsAfterFail then [.removeTemp] else []

/-- Events from the stability wait onward, lines 296-403: the quality
table and encoder-argument selection (lines 299-351) are pure and emit
no action; the audio probe gates the encoder invocation (lines 354-357). -/
def afterStability (env : EncodeEnv) : List Event :=
  .stabilityWait ::
    (if env.sourceStable then
      .audioProbe ::
        (match env.audioStreams with
         | [] => []
         | _ :: _ => .invokeEncoder :: afterEncode env)
     else [])

/-- Events from the processed-cache check onward, lines 281-403.
`tempNow` tracks whether the temp file still exists when line 293 runs
(it was deleted at line 279 if it existed and was not growing). -/
def afterFinalCheck (env : EncodeEnv) (tempNow : Bool) : List Event :=
  if env.alreadyProcessed then []
  else if env.finalExists && env.finalValid then
    [.verifyFinalFile, .markProcessed, .symlinkCreate]
  else
    (if env.finalExists then [.verifyFinalFile, .removeFinal] else []) ++
    (if tempNow then [.removeTemp] else []) ++
    afterStability env

/-- Events of the stale-temp block, lines 272-279: a growing temp file
aborts the job; a stale one is deleted before continuing. -/
def afterTempBlock (env : EncodeEnv) : List Event :=
  if env.tempExists then
    if env.tempGrowing then [.growthCheck]
    else .growthCheck :: .removeTemp :: afterFinalCheck env false
  else afterFinalCheck env false

/-- Events of the `try` body of `encode_video`, lines 249-403: destination
directory creation, then the sentinel check of the version-aware name. -/
def encodeTry (env : EncodeEnv) : List Event :=
  .makeDestDir ::
    (match outputName env with
     | none => []
     | some _ => afterTempBlock env)

/-- Embedding of `encode_video` (monitor.py lines 232-405) as the trace of
its observable actions.  The registry test and the quality gate run before
registration; once line 247 registers the path, the `finally` of line
404-405 appends exactly one `unregister` to whatever the body did. -/
def encode_video (env : EncodeEnv) : List Event :=
  if env.alreadyProcessing then []
  else if env.lowQuality then [.qualityCheck]
  else .qualityCheck :: .metadataProbe :: .register :: (encodeTry env ++ [.unregister])

/-- Whether every occurrence of `b` in the trace is strictly preceded by
an occurrence of `a`; `seen` records whether `a` has already occurred. -/
def precededBy (a b : Event) : Bool → List Event → Bool
  | _, [] => true
  | seen, e :: tr =>
    if e = b && !seen then false
    else precededBy a b (seen || e = a) tr

/-- Registry membership of the job's path after the trace has run,
starting from membership `init`: `register` adds it, `unregister` removes
it, every other action leaves the registry alone. -/
def registryAfter (init : Bool) (tr : List Event) : Bool :=
  tr.foldl
    (fun r e =>
      match e with
      | Event.register => true
      | Event.unregister => false
      | _ => r) init

/-- State of the source tree as `cleanup_destination` observes it:
whether `os.path.isdir(SOURCE_FOLDER)` holds, and the relative paths of
the video files `scan_source_directory` finds. -/
structure SrcState where
  accessible : Bool
  videoRelPaths : List FPath

/-- One file found by the walk of `DEST_FOLDER`, by its path relative to
the destination root, together with the `is_file_growing` oracle for the
stale-tmp guard of monitor.py line 544. -/
structure DFile where
  rel : FPath
  growing : Bool

/-- Stem of a relative path: `os.path.splitext(p)[0]`, monitor.py line 527. -/
def pathStem (p : FPath) : FPath := (pathSplitext p).1

/-- Test of monitor.py line 534: `file.lower().endswith(('.mkv', '.mkv.tmp'))`. -/
def isOwnOutputName (file : Str) : Bool :=
  (str ".mkv").isSuffixOf (lowerStr file) || (str ".mkv.tmp").isSuffixOf (lowerStr file)

/-- Embedding of `cleanup_destination` (monitor.py lines 505-555),
returning the relative paths of the destination files the pass removes.
The two safety rails (inaccessible source root, empty video listing)
abort with no deletion; otherwise a destination file is removed exactly
when its name is a `.mkv`/`.mkv.tmp` output, its stem has no source
counterpart, and it is not a still-growing temp file. -/
def cleanup_destination (src : SrcState) (dest : List DFile) : List FPath :=
  if !src.accessible then []
  else if src.videoRelPaths = [] then []
  else
    let source_stems := src.videoRelPaths.map pathStem
    dest.filterMap (fun df =>
      let file := filenameOf df.rel
      if !isOwnOutputName file then none
      else
        let (stem1, ext1) := pathSplitext df.rel
        let dest_stem := if ext1 = str ".tmp" then pathStem stem1 else stem1
        if dest_stem ∈ source_stems then none
        else if (str ".tmp").isSuffixOf file && df.growing then none
        else some df.rel)

/-- Filesystem fragment the symlink manager touches: the existing symlinks
(link path with its target) and the other directory entries. -/
structure LinkFS where
  links : List (FPath × FPath)
  files : List FPath

/-- Python `os.path.islink` over the model. -/
def islink (fs : LinkFS) (p : FPath) : Bool :=
  fs.links.any (fun e => e.1 == p)

/-- Python `os.path.exists` over the model (true for links and files). -/
def pathExists (fs : LinkFS) (p : FPath) : Bool :=
  islink fs p || fs.files.contains p

/-- Target of the symlink at `p`, if one exists. -/
def lookupLink (fs : LinkFS) (p : FPath) : Option FPath :=
  (fs.links.find? (fun e => e.1 == p)).map (fun e => e.2)

/-- Link path `create_version_symlink` computes (monitor.py lines 419-424):
source stem + version suffix + `.mkv`, beside the source file. -/
def versionLinkPath (vsuffix : Str) (source_path : FPath) : FPath :=
  source_path.dropLast ++ [(splitextName (filenameOf source_path)).1 ++ vsuffix ++ str ".mkv"]

/-- Embedding of `create_version_symlink` (monitor.py lines 407-444).
`linkRoot` is `SYMLINK_TARGET_PREFIX` (empty = feature disabled),
`destRoot` is `DEST_FOLDER`.  Returns the updated filesystem and the
created link path (the Python return value, `None` when nothing was
created). -/
def create_version_symlink (linkRoot : FPath) (vsuffix : Str) (destRoot : FPath)
    (source_path : FPath) (dest_file_final : FPath) (fs : LinkFS) :
    LinkFS × Option FPath :=
  if linkRoot = [] then (fs, none)
  else
    let symlink_path := versionLinkPath vsuffix source_path
    let symlink_target := linkRoot ++ relpathOf dest_file_final destRoot
    if islink fs symlink_path then
      let fs1 : LinkFS :=
        ⟨(symlink_path, symlink_target) ::
           fs.links.filter (fun e => !(e.1 == symlink_path)), fs.files⟩
      (fs1, some symlink_path)
    else if pathExists fs symlink_path then (fs, none)
    else (⟨(symlink_path, symlink_target) :: fs.links, fs.files⟩, some symlink_path)

/-!
Theorems.  Helper lemmas come first, then one theorem per claim (with its
counterexample and witness where applicable).
-/

/-- Every member of the quality-suffix table keeps its own trimmed form as
a suffix of itself. -/
theorem qual_strip_suffix : ∀ s ∈ QUALITY_SUFFIXES, (pstrip s).isSuffixOf s = true := by
  decide

/-- C4: the claim's own case split fails on the code.  For the stem
`X- 720p` with version suffix `" - 720p"` the stem does not end with the
version suffix and no quality suffix matches, so the claim prescribes
appending (`X- 720p - 720p`); the code instead tests the trimmed suffix
`- 720p`, which does match, and returns the skip sentinel. -/
theorem version_name_claim_counterexample :
    versionNameClaimSpec (str " - 720p") (str "X- 720p") = false := by
  decide

/-- C4 (amended): with the sentinel test on the whitespace-trimmed version
suffix - which is what `get_version_output_name` checks - the case split
holds for every stem and nonempty suffix, every non-sentinel output
differs from the input stem, and `S01E01 - 1080p` maps to
`S01E01 - 720p` under the suffix `" - 720p"`. -/
theorem version_name_amended :
    (∀ vsuffix source_name : Str, vsuffix ≠ [] →
        versionNameAmendedSpec vsuffix source_name = true ∧
        (∀ out, get_version_output_name vsuffix source_name = some out →
          out ≠ source_name)) ∧
    get_version_output_name (str " - 720p") (str "S01E01 - 1080p")
      = some (str "S01E01 - 720p") := by
  constructor
  · intro vsuffix source_name hvs
    constructor
    · unfold versionNameAmendedSpec get_version_output_name
      rw [if_neg hvs]
      by_cases hs : (pstrip vsuffix).isSuffixOf source_name = true
      · simp [hs]
      · rw [Bool.not_eq_true] at hs
        simp only [hs, Bool.false_eq_true, if_false]
        cases hf : QUALITY_SUFFIXES.find? (fun s => s.isSuffixOf source_name) <;>
          simp [hf]
    · intro out hout heq
      unfold get_version_output_name at hout
      rw [if_neg hvs] at hout
      by_cases hs : (pstrip vsuffix).isSuffixOf source_name = true
      · rw [if_pos hs] at hout
        exact Option.noConfusion hout
      · rw [Bool.not_eq_true] at hs
        rw [if_neg (by simp [hs])] at hout
        cases hf : QUALITY_SUFFIXES.find? (fun s => s.isSuffixOf source_name) with
        | none =>
          rw [hf] at hout
          have hout' : source_name ++ vsuffix = out := by
            exact Option.some.inj hout
          rw [heq] at hout'
          have hlen := congrArg List.length hout'
          rw [List.length_append] at hlen
          have : vsuffix.length = 0 := by omega
          exact hvs (List.eq_nil_of_length_eq_zero this)
        | some s =>
          rw [hf] at hout
          have hsfx : s.isSuffixOf source_name = true := by
            have := List.find?_some hf
            simpa using this
          have hmem : s ∈ QUALITY_SUFFIXES := List.mem_of_find?_eq_some hf
          obtain ⟨t, ht⟩ := List.isSuffixOf_iff_suffix.mp hsfx
          have hlen : source_name.length = t.length + s.length := by
            rw [← ht, List.length_append]
          have htake : source_name.take (source_name.length - s.length) = t := by
            rw [← ht]
            have hlt : (t ++ s).length - s.length = t.length := by
              rw [List.length_append]
              omega
            rw [hlt]
            exact List.take_left t s
          have hout2 : some (source_name.take (source_name.length - s.length) ++ vsuffix)
              = some out := hout
          rw [htake] at hout2
          have hout' : t ++ vsuffix = out := Option.some.inj hout2
          rw [heq, ← ht] at hout'
          have hvq : vsuffix = s := List.append_cancel_left hout'
          have : (pstrip vsuffix).isSuffixOf source_name = true := by
            have h1 : pstrip s <:+ s :=
              List.isSuffixOf_iff_suffix.mp (qual_strip_suffix s hmem)
            have h2 : s <:+ source_name := List.isSuffixOf_iff_suffix.mp hsfx
            rw [hvq]
            exact List.isSuffixOf_iff_suffix.mpr (h1.trans h2)
          rw [this] at hs
          exact Bool.noConfusion hs
  · decide

/-- C4 witness: the amended theorem applied at the suffix `" - 720p"` and
the stem `Movie`. -/
theorem version_name_amended_witness :
    versionNameAmendedSpec (str " - 720p") (str "Movie") = true :=
  (version_name_amended.1 (str " - 720p") (str "Movie") (by decide)).1

/-- C6: `verify_encoded_file` accepts exactly the probe results that exit
cleanly with a strictly positive container duration; every probe failure
is invalid.  The embedding takes only the probe result and returns only
the boolean, so verification touches no filesystem state. -/
theorem verify_encoded_file_spec :
    ∀ r : ProbeResult,
      verify_encoded_file r = true ↔ ∃ d : ℚ, r = ProbeResult.ok d ∧ 0 < d := by
  intro r
  cases r with
  | ok d => simp [verify_encoded_file]
  | failure => simp [verify_encoded_file]

/-- C7: a filename whose lowercase form contains a high-quality marker is
never skipped (and the probe is not consulted), regardless of any
low-quality markers; a filename with a low-quality marker and no
high-quality marker is skipped without consulting the probe. -/
theorem quality_gate_markers :
    ∀ (probeHeight : Option Int) (filename : Str),
      (high_quality_markers.any (fun m => containsSub m (lowerStr filename)) = true →
        is_already_low_quality probeHeight filename = ⟨false, false⟩) ∧
      (low_quality_markers.any (fun m => containsSub m (lowerStr filename)) = true →
        high_quality_markers.any (fun m => containsSub m (lowerStr filename)) = false →
        is_already_low_quality probeHeight filename = ⟨true, false⟩) := by
  intro probeHeight filename
  constructor
  · intro hh
    simp [is_already_low_quality, hh]
  · intro hl hh
    simp [is_already_low_quality, hh, hl]

/-- C7 witness: the gate applied to `Movie.1080p.720p.mkv` (high beats
low) and to `Movie.720p.mkv` (low, skipped without probing). -/
theorem quality_gate_markers_witness :
    is_already_low_quality none (str "Movie.1080p.720p.mkv") = ⟨false, false⟩ ∧
    is_already_low_quality none (str "Movie.720p.mkv") = ⟨true, false⟩ :=
  ⟨(quality_gate_markers none (str "Movie.1080p.720p.mkv")).1 (by decide),
   (quality_gate_markers none (str "Movie.720p.mkv")).2 (by decide) (by decide)⟩

/-- While the observed size keeps strictly exceeding the previous sample,
the consecutive-equal-sample counter of `wait_loop` resets at every
iteration and the loop can only time out. -/
theorem wait_loop_strict_growth (s : Nat → Int) (hmono : ∀ j, s j < s (j + 1)) :
    ∀ (fuel : Nat) (i : Nat) (last : Int) (count : Nat), last < s i →
      wait_loop (fun j => some (s j)) fuel i last count = false := by
  intro fuel
  induction fuel with
  | zero =>
    intro i last count hlt
    unfold wait_loop
    simp only
    rw [if_neg (by omega : ¬s i = last)]
    rw [if_neg (by simp [MAX_SAME_SIZE_COUNT])]
  | succ n ih =>
    intro i last count hlt
    unfold wait_loop
    simp only
    rw [if_neg (by omega : ¬s i = last)]
    rw [if_neg (by simp [MAX_SAME_SIZE_COUNT])]
    exact ih (i + 1) (s i) 0 (hmono i)

/-- On the trace side, when the stability wait does not return stable the
job stops before the audio probe, so no encoder invocation appears. -/
theorem invoke_not_mem_afterFinalCheck (env : EncodeEnv) (tempNow : Bool)
    (h : env.sourceStable = false) :
    Event.invokeEncoder ∉ afterFinalCheck env tempNow := by
  unfold afterFinalCheck afterStability
  rw [h]
  split
  · simp
  · split
    · simp
    · split <;> split <;> simp

/-- Unstable source: `encodeTry` emits no encoder invocation. -/
theorem invoke_not_mem_encodeTry (env : EncodeEnv) (h : env.sourceStable = false) :
    Event.invokeEncoder ∉ encodeTry env := by
  unfold encodeTry afterTempBlock
  have h1 := invoke_not_mem_afterFinalCheck env false h
  split
  · simp
  · split
    · split
      · simp
      · simp [h1]
    · simp [h1]

/-- C5: a file whose observed size strictly increases at every one-second
sample never makes `wait_for_file_completion` report stability, whatever
the timeout budget; and a job whose stability wait came back unstable
never reaches the encoder invocation. -/
theorem growing_file_never_encoded :
    (∀ (t : Nat → Nat) (fuel : Nat), (∀ j, t j < t (j + 1)) →
        wait_for_file_completion (fun j => some ((t j : Int))) fuel = false) ∧
    (∀ env : EncodeEnv, env.sourceStable = false →
        Event.invokeEncoder ∉ encode_video env) := by
  constructor
  · intro t fuel hmono
    unfold wait_for_file_completion
    exact wait_loop_strict_growth (fun j => ((t j : Nat) : Int))
      (fun j => by
        show ((t j : Nat) : Int) < ((t (j + 1) : Nat) : Int)
        exact_mod_cast hmono j)
      fuel 0 (-1) 0
      (by
        show (-1 : Int) < ((t 0 : Nat) : Int)
        have := Int.ofNat_nonneg (t 0)
        omega)
  · intro env h
    unfold encode_video
    split
    · simp
    · split
      · simp
      · simp only [List.mem_cons, List.mem_append, List.mem_singleton]
        push_neg
        refine ⟨by simp, by simp, by simp, ?_, by simp⟩
        exact invoke_not_mem_encodeTry env h

/-- C5 witness: the strictly growing size sequence `j ↦ j` with a
five-sample budget, and a concrete unstable-job environment. -/
theorem growing_file_never_encoded_witness :
    wait_for_file_completion (fun j => some ((j : Int))) 5 = false ∧
    Event.invokeEncoder ∉ encode_video
      ⟨false, false, false, [], str "m", false, false, false, false, false,
       false, [str "aac"], true, true, false⟩ :=
  ⟨growing_file_never_encoded.1 (fun j => j) 5 (fun j => Nat.lt_succ_self j),
   growing_file_never_encoded.2
     ⟨false, false, false, [], str "m", false, false, false, false, false,
      false, [str "aac"], true, true, false⟩ rfl⟩

/-- C1: a cleanup pass deletes nothing when the source root is not
accessible as a directory or when the source scan yields no video files
(equivalently, when the source stem set is empty). -/
theorem cleanup_empty_source_no_deletions :
    ∀ (src : SrcState) (dest : List DFile),
      src.accessible = false ∨ src.videoRelPaths.map pathStem = [] →
      cleanup_destination src dest = [] := by
  intro src dest h
  unfold cleanup_destination
  rcases h with h | h
  · simp [h]
  · have hnil : src.videoRelPaths = [] := by
      cases hv : src.videoRelPaths with
      | nil => rfl
      | cons a t => rw [hv] at h; simp at h
    simp [hnil]

/-- C1 witness: an inaccessible source root with a populated destination,
and an accessible root with an empty listing. -/
theorem cleanup_empty_source_no_deletions_witness :
    cleanup_destination ⟨false, [[str "a.mkv"]]⟩ [⟨[str "b.mkv"], false⟩] = [] ∧
    cleanup_destination ⟨true, []⟩ [⟨[str "b.mkv"], false⟩] = [] :=
  ⟨cleanup_empty_source_no_deletions ⟨false, [[str "a.mkv"]]⟩
     [⟨[str "b.mkv"], false⟩] (Or.inl rfl),
   cleanup_empty_source_no_deletions ⟨true, []⟩
     [⟨[str "b.mkv"], false⟩] (Or.inr rfl)⟩

/-- C10: every path a cleanup pass removes names a file whose lowercase
name ends in `.mkv` or `.mkv.tmp`; destination files with any other name
are never deleted by cleanup. -/
theorem cleanup_only_own_outputs :
    ∀ (src : SrcState) (dest : List DFile) (p : FPath),
      p ∈ cleanup_destination src dest → isOwnOutputName (filenameOf p) = true := by
  intro src dest p hp
  unfold cleanup_destination at hp
  split at hp
  · simp at hp
  · split at hp
    · simp at hp
    · rw [List.mem_filterMap] at hp
      obtain ⟨df, _, hmap⟩ := hp
      by_cases hown : isOwnOutputName (filenameOf df.rel) = true
      · have hrel : p = df.rel := by
          simp only [hown, Bool.not_true, Bool.false_eq_true, if_false] at hmap
          repeat' split at hmap
          all_goals
            first
              | exact Option.noConfusion hmap
              | exact (Option.some.inj hmap).symm
        rw [hrel]
        exact hown
      · rw [Bool.not_eq_true] at hown
        simp [hown] at hmap

/-- C10 witness: a concrete pass that removes an orphaned `b.mkv`. -/
theorem cleanup_only_own_outputs_witness :
    isOwnOutputName (filenameOf [str "b.mkv"]) = true :=
  cleanup_only_own_outputs ⟨true, [[str "a.mkv"]]⟩
    [⟨[str "b.mkv"], false⟩, ⟨[str "b.txt"], false⟩] [str "b.mkv"] (by decide)

/-- Once `a` has been seen, `precededBy a b` accepts any remaining trace. -/
theorem precededBy_of_seen (a b : Event) : ∀ tr, precededBy a b true tr = true := by
  intro tr
  induction tr with
  | nil => rfl
  | cons e t ih =>
    unfold precededBy
    simp [ih]

/-- The `try` body of `encode_video` never touches the registry: neither
`register` nor `unregister` occurs in `afterEncode`. -/
theorem reg_unreg_not_mem_afterEncode (env : EncodeEnv) :
    Event.register ∉ afterEncode env ∧ Event.unregister ∉ afterEncode env := by
  constructor <;>
  · unfold afterEncode
    split
    · split <;> simp
    · split <;> simp

/-- Neither `register` nor `unregister` occurs in `afterStability`. -/
theorem reg_unreg_not_mem_afterStability (env : EncodeEnv) :
    Event.register ∉ afterStability env ∧ Event.unregister ∉ afterStability env := by
  have hae := reg_unreg_not_mem_afterEncode env
  constructor <;>
  · unfold afterStability
    split
    · cases h : env.audioStreams <;> simp [h, hae.1, hae.2]
    · simp

/-- Neither `register` nor `unregister` occurs in `afterFinalCheck`. -/
theorem reg_unreg_not_mem_afterFinalCheck (env : EncodeEnv) (tempNow : Bool) :
    Event.register ∉ afterFinalCheck env tempNow ∧
    Event.unregister ∉ afterFinalCheck env tempNow := by
  have has := reg_unreg_not_mem_afterStability env
  constructor <;>
  · unfold afterFinalCheck
    split
    · simp
    · split
      · simp
      · split <;> split <;> simp [has.1, has.2]

/-- Neither `register` nor `unregister` occurs in `encodeTry`. -/
theorem reg_unreg_not_mem_encodeTry (env : EncodeEnv) :
    Event.register ∉ encodeTry env ∧ Event.unregister ∉ encodeTry env := by
  have h0 := reg_unreg_not_mem_afterFinalCheck env false
  have h1 := reg_unreg_not_mem_afterFinalCheck env false
  constructor <;>
  · unfold encodeTry afterTempBlock
    cases ho : outputName env <;>
      simp only [ho, List.mem_cons]
    · simp
    · split
      · split
        · simp
        · simp [h0.1, h0.2]
      · simp [h0.1, h0.2]

/-- C2 counterexample: the claim places registration before the quality
gate, but on a fresh candidate the very first trace action is the quality
check, with no prior registration. -/
theorem register_before_quality_counterexample :
    precededBy Event.register Event.qualityCheck false
      (encode_video ⟨false, false, false, [], str "m", false, false, false,
        false, false, false, [], false, false, false⟩) = false := by
  decide

/-- C2 (amended): in the code the registry check runs first, the
QualityGate check second, and registration third: every registration in
the trace is preceded by the quality check, and a path the gate skips is
never registered at all - so at the moment the quality decision is
evaluated the path is not yet in the registry. -/
theorem quality_check_precedes_registration :
    ∀ env : EncodeEnv,
      precededBy Event.qualityCheck Event.register false (encode_video env) = true ∧
      (env.lowQuality = true → Event.register ∉ encode_video env) := by
  intro env
  constructor
  · unfold encode_video
    split
    · rfl
    · split
      · rfl
      · simp [precededBy, precededBy_of_seen]
  · intro hl
    by_cases h1 : env.alreadyProcessing = true
    · unfold encode_video
      rw [if_pos h1]
      simp
    · unfold encode_video
      rw [if_neg h1, if_pos hl]
      simp

/-- C2 witness: the amended theorem applied to a low-quality candidate,
which the gate skips without ever registering. -/
theorem quality_check_precedes_registration_witness :
    Event.register ∉ encode_video ⟨false, true, false, [], str "m", false, false,
      false, false, false, false, [], false, false, false⟩ :=
  (quality_check_precedes_registration ⟨false, true, false, [], str "m", false,
    false, false, false, false, false, [], false, false, false⟩).2 rfl

/-- C3: once a candidate is registered, the whole trace is the quality
check, the metadata probe, the registration, the job body, and a single
final unregistration; the body itself never registers or unregisters, so
the path stays in the registry for the entire job and is removed exactly
once, on every exit path. -/
theorem registry_registered_once :
    ∀ env : EncodeEnv, Event.register ∈ encode_video env →
      encode_video env
        = Event.qualityCheck :: Event.metadataProbe :: Event.register ::
            (encodeTry env ++ [Event.unregister]) ∧
      Event.register ∉ encodeTry env ∧ Event.unregister ∉ encodeTry env := by
  intro env hmem
  have h := reg_unreg_not_mem_encodeTry env
  refine ⟨?_, h.1, h.2⟩
  by_cases h1 : env.alreadyProcessing = true
  · unfold encode_video at hmem
    rw [if_pos h1] at hmem
    simp at hmem
  · by_cases h2 : env.lowQuality = true
    · unfold encode_video at hmem
      rw [if_neg h1, if_pos h2] at hmem
      simp at hmem
    · unfold encode_video
      rw [if_neg h1, if_neg h2]

/-- C3 witness: the theorem applied to a registered job that runs to a
successful commit. -/
theorem registry_registered_once_witness :
    encode_video ⟨false, false, false, [], str "m", false, false, false, false,
        false, true, [str "aac"], true, true, false⟩
      = Event.qualityCheck :: Event.metadataProbe :: Event.register ::
          (encodeTry ⟨false, false, false, [], str "m", false, false, false,
            false, false, true, [str "aac"], true, true, false⟩
            ++ [Event.unregister]) ∧
    Event.register ∉ encodeTry ⟨false, false, false, [], str "m", false, false,
      false, false, false, true, [str "aac"], true, true, false⟩ ∧
    Event.unregister ∉ encodeTry ⟨false, false, false, [], str "m", false, false,
      false, false, false, true, [str "aac"], true, true, false⟩ :=
  registry_registered_once ⟨false, false, false, [], str "m", false, false,
    false, false, false, true, [str "aac"], true, true, false⟩ (by decide)

/-- Splitting `registryAfter` over an appended trace. -/
theorem registryAfter_append (init : Bool) (l₁ l₂ : List Event) :
    registryAfter init (l₁ ++ l₂) = registryAfter (registryAfter init l₁) l₂ := by
  simp [registryAfter, List.foldl_append]

/-- A trace ending in `unregister` leaves the registry without the path. -/
theorem registryAfter_unreg_last (init : Bool) (l : List Event) :
    registryAfter init (l ++ [Event.unregister]) = false := by
  rw [registryAfter_append]
  rfl

/-- With no audio streams, `afterStability` stops at the audio probe. -/
theorem no_audio_afterStability (env : EncodeEnv) (h : env.audioStreams = []) :
    Event.invokeEncoder ∉ afterStability env ∧
    Event.renameTempFinal ∉ afterStability env := by
  constructor <;>
  · unfold afterStability
    rw [h]
    split <;> simp

/-- With no audio streams, `afterFinalCheck` neither invokes the encoder
nor creates the final file. -/
theorem no_audio_afterFinalCheck (env : EncodeEnv) (tempNow : Bool)
    (h : env.audioStreams = []) :
    Event.invokeEncoder ∉ afterFinalCheck env tempNow ∧
    Event.renameTempFinal ∉ afterFinalCheck env tempNow := by
  have has := no_audio_afterStability env h
  constructor <;>
  · unfold afterFinalCheck
    split
    · simp
    · split
      · simp
      · split <;> split <;> simp [has.1, has.2]

/-- With no audio streams, `encodeTry` neither invokes the encoder nor
creates the final file. -/
theorem no_audio_encodeTry (env : EncodeEnv) (h : env.audioStreams = []) :
    Event.invokeEncoder ∉ encodeTry env ∧
    Event.renameTempFinal ∉ encodeTry env := by
  have h0 := no_audio_afterFinalCheck env false h
  constructor <;>
  · unfold encodeTry afterTempBlock
    cases ho : outputName env <;>
      simp only [ho, List.mem_cons]
    · simp
    · split
      · split
        · simp
        · simp [h0.1, h0.2]
      · simp [h0.1, h0.2]

/-- C9: when the audio probe reports no audio streams (which is also what
it reports on its own failure), the job never invokes the encoder, never
commits a final file (and so creates no temp or final artifact), and the
path ends up outside the ProcessingRegistry. -/
theorem no_audio_aborts :
    ∀ env : EncodeEnv, env.audioStreams = [] →
      Event.invokeEncoder ∉ encode_video env ∧
      Event.renameTempFinal ∉ encode_video env ∧
      registryAfter false (encode_video env) = false := by
  intro env h
  have h0 := no_audio_encodeTry env h
  refine ⟨?_, ?_, ?_⟩ <;> unfold encode_video <;> split
  · simp
  · split
    · simp
    · simp only [List.mem_cons, List.mem_append, List.mem_singleton]
      push_neg
      exact ⟨by simp, by simp, by simp, h0.1, by simp⟩
  · simp
  · split
    · simp
    · simp only [List.mem_cons, List.mem_append, List.mem_singleton]
      push_neg
      exact ⟨by simp, by simp, by simp, h0.2, by simp⟩
  · rfl
  · split
    · rfl
    · have heq : Event.qualityCheck :: Event.metadataProbe :: Event.register ::
          (encodeTry env ++ [Event.unregister])
          = (Event.qualityCheck :: Event.metadataProbe :: Event.register ::
              encodeTry env) ++ [Event.unregister] := by
        simp
      rw [heq, registryAfter_unreg_last]

/-- C9 witness: a concrete registered job whose audio probe comes back
empty. -/
theorem no_audio_aborts_witness :
    Event.invokeEncoder ∉ encode_video ⟨false, false, false, [], str "m", false,
      false, false, false, false, true, [], true, true, false⟩ ∧
    Event.renameTempFinal ∉ encode_video ⟨false, false, false, [], str "m",
      false, false, false, false, false, true, [], true, true, false⟩ ∧
    registryAfter false (encode_video ⟨false, false, false, [], str "m", false,
      false, false, false, false, true, [], true, true, false⟩) = false :=
  no_audio_aborts ⟨false, false, false, [], str "m", false, false, false, false,
    false, true, [], true, true, false⟩ rfl

/-- Filtering the entries keyed `lp` out of a link table does not change
lookups at any other key. -/
theorem find?_filter_ne (l : List (FPath × FPath)) (lp q : FPath) (h : ¬q = lp) :
    (l.filter (fun e => !(e.1 == lp))).find? (fun e => e.1 == q)
      = l.find? (fun e => e.1 == q) := by
  induction l with
  | nil => rfl
  | cons a t ih =>
    by_cases h1 : a.1 = lp
    · have hq : (a.1 == q) = false := by
        rw [h1]
        exact beq_eq_false_iff_ne.mpr fun hh => h hh.symm
      rw [List.filter_cons_of_neg (by simp [h1]),
        List.find?_cons_of_neg _ (by simp [hq]), ih]
    · by_cases h2 : a.1 = q
      · rw [List.filter_cons_of_pos (by simp [h1]),
          List.find?_cons_of_pos _ (by simp [h2]),
          List.find?_cons_of_pos _ (by simp [h2])]
      · have hq : (a.1 == q) = false := beq_eq_false_iff_ne.mpr h2
        rw [List.filter_cons_of_pos (by simp [h1]),
          List.find?_cons_of_neg _ (by simp [hq]),
          List.find?_cons_of_neg _ (by simp [hq]), ih]

/-- C8 counterexample: the host prefix is configured and nothing in the
claim's wording excuses the call, yet when a regular (non-link) file sits
at the computed link location `create_version_symlink` creates no link at
all. -/
theorem symlink_create_counterexample :
    ([str "host"] : FPath) ≠ [] ∧
    islink (create_version_symlink [str "host"] (str " - 720p") [str "dest"]
        [str "src", str "Movie.mkv"] [str "dest", str "Movie.mkv"]
        ⟨[], [[str "src", str "Movie - 720p.mkv"]]⟩).1
      (versionLinkPath (str " - 720p") [str "src", str "Movie.mkv"]) = false := by
  decide

/-- C8 (amended): with a configured host prefix the manager computes the
link name stem + suffix + `.mkv` beside the source file, replaces any
pre-existing link there, and links it to the prefix-rewritten destination
path, leaving all other entries alone - unless a non-link entry already
occupies the link path, in which case it does nothing; with no host
prefix the call is a no-op. -/
theorem symlink_create_amended :
    ∀ (linkRoot : FPath) (vsuffix : Str) (destRoot : FPath)
      (source_path dest_file_final : FPath) (fs : LinkFS),
      (linkRoot = [] →
        create_version_symlink linkRoot vsuffix destRoot source_path
          dest_file_final fs = (fs, none)) ∧
      (linkRoot ≠ [] →
        islink fs (versionLinkPath vsuffix source_path) = false →
        pathExists fs (versionLinkPath vsuffix source_path) = true →
        create_version_symlink linkRoot vsuffix destRoot source_path
          dest_file_final fs = (fs, none)) ∧
      (linkRoot ≠ [] →
        (islink fs (versionLinkPath vsuffix source_path) = true ∨
          pathExists fs (versionLinkPath vsuffix source_path) = false) →
        lookupLink (create_version_symlink linkRoot vsuffix destRoot source_path
            dest_file_final fs).1 (versionLinkPath vsuffix source_path)
          = some (linkRoot ++ relpathOf dest_file_final destRoot) ∧
        (create_version_symlink linkRoot vsuffix destRoot source_path
            dest_file_final fs).1.files = fs.files ∧
        (∀ q, q ≠ versionLinkPath vsuffix source_path →
          lookupLink (create_version_symlink linkRoot vsuffix destRoot source_path
              dest_file_final fs).1 q = lookupLink fs q) ∧
        (create_version_symlink linkRoot vsuffix destRoot source_path
            dest_file_final fs).2
          = some (versionLinkPath vsuffix source_path)) := by
  intro linkRoot vsuffix destRoot source_path dest_file_final fs
  refine ⟨?_, ?_, ?_⟩
  · intro h
    unfold create_version_symlink
    rw [if_pos h]
  · intro h hlink hex
    unfold create_version_symlink
    rw [if_neg h, if_neg (by simp [hlink]), if_pos hex]
  · intro h hcase
    rcases hcase with hlink | hex
    · unfold create_version_symlink
      rw [if_neg h, if_pos hlink]
      refine ⟨?_, rfl, ?_, rfl⟩
      · simp [lookupLink]
      · intro q hq
        simp only [lookupLink]
        have hhead : ((versionLinkPath vsuffix source_path,
            linkRoot ++ relpathOf dest_file_final destRoot).1 == q) = false :=
          beq_eq_false_iff_ne.mpr fun hh => hq hh.symm
        rw [List.find?_cons_of_neg _ (by simp [hhead]),
          find?_filter_ne fs.links (versionLinkPath vsuffix source_path) q hq]
    · have hlinkf : islink fs (versionLinkPath vsuffix source_path) = false := by
        unfold pathExists at hex
        exact (Bool.or_eq_false_iff.mp hex).1
      unfold create_version_symlink
      rw [if_neg h, if_neg (by simp [hlinkf]), if_neg (by simp [hex])]
      refine ⟨?_, rfl, ?_, rfl⟩
      · simp [lookupLink]
      · intro q hq
        simp only [lookupLink]
        have hhead : ((versionLinkPath vsuffix source_path,
            linkRoot ++ relpathOf dest_file_final destRoot).1 == q) = false :=
          beq_eq_false_iff_ne.mpr fun hh => hq hh.symm
        rw [List.find?_cons_of_neg _ (by simp [hhead])]

/-- C8 witness: the amended theorem applied at a free link location,
producing the link with the prefix-rewritten target. -/
theorem symlink_create_amended_witness :
    lookupLink (create_version_symlink [str "host"] (str " - 720p") [str "dest"]
        [str "src", str "Movie.mkv"] [str "dest", str "sub", str "Movie.mkv"]
        ⟨[], []⟩).1 (versionLinkPath (str " - 720p") [str "src", str "Movie.mkv"])
      = some ([str "host"]
          ++ relpathOf [str "dest", str "sub", str "Movie.mkv"] [str "dest"]) :=
  ((symlink_create_amended [str "host"] (str " - 720p") [str "dest"]
      [str "src", str "Movie.mkv"] [str "dest", str "sub", str "Movie.mkv"]
      ⟨[], []⟩).2.2 (by decide) (Or.inr (by decide))).1
